import Mathlib

/-!
Shallow embedding of the AI-Powered Notes Summarizer backend.

Strings are modelled as `List Char`, timestamps and store-assigned opaque
identifiers as `Nat`, and every external call (the Gemini model reply, the
Firestore document store, the JWT verifier, the Tesseract OCR worker) is an
explicit parameter or an explicit in-memory state, so that each controller or
service becomes a pure, executable Lean function mirroring the JavaScript
control flow.
-/

set_option synthInstance.maxSize 2048

namespace NotesSummarizer

/-! ## JavaScript string primitives -/

/-- Whitespace test backing the JS `trim`, the `\s` regex class and the
whitespace splits used throughout the codebase (ASCII subset). -/
def isJsWs (c : Char) : Bool :=
  c = '\x20' || c = '\t' || c = '\n' || c = '\r' || c = '\x0b' || c = '\x0c'

/-- JS `String.prototype.trim`: drop whitespace from both ends. -/
def jsTrim (l : List Char) : List Char :=
  ((l.dropWhile isJsWs).reverse.dropWhile isJsWs).reverse

/-- Does `pat` occur at the very front of the second list? -/
def leadsWith : List Char → List Char → Bool
  | [], _ => true
  | _ :: _, [] => false
  | p :: ps, c :: cs => p = c && leadsWith ps cs

/-- Index of the first occurrence of `pat` (JS `String.prototype.indexOf`). -/
def firstOcc (pat : List Char) : List Char → Option Nat
  | [] => if leadsWith pat [] then some 0 else none
  | c :: rest =>
    if leadsWith pat (c :: rest) then some 0
    else (firstOcc pat rest).map (· + 1)

/-- JS `String.prototype.replace` with a plain-string pattern: splice the
replacement over the first occurrence only. -/
def jsReplaceFirst (pat rep l : List Char) : List Char :=
  match firstOcc pat l with
  | none => l
  | some i => l.take i ++ rep ++ l.drop (i + pat.length)

/-- Worker for `jsSplit`.  The fuel argument is a termination device only:
each recursive step consumes at least one character of `l` (the separator is
nonempty there), so the initial fuel `l.length + 1` is never exhausted; see
`jsSplitGo_fuel`. -/
def jsSplitGo (sep : List Char) : Nat → List Char → List (List Char)
  | 0, l => [l]
  | fuel + 1, l =>
    match firstOcc sep l with
    | none => [l]
    | some i => l.take i :: jsSplitGo sep fuel (l.drop (i + sep.length))

/-- JS `String.prototype.split` with a plain-string separator: repeatedly cut
at the leftmost occurrence. -/
def jsSplit (sep l : List Char) : List (List Char) :=
  if sep = [] then l.map (fun c => [c]) else jsSplitGo sep (l.length + 1) l

/-- Content strictly before the first occurrence of `pat` (the whole string
when `pat` does not occur). -/
def beforeFirst (pat l : List Char) : List Char :=
  match firstOcc pat l with
  | none => l
  | some i => l.take i

/-- Content strictly after the first occurrence of `pat`, when it occurs. -/
def afterFirst (pat l : List Char) : Option (List Char) :=
  (firstOcc pat l).map (fun i => l.drop (i + pat.length))

/-- Does `pat` occur anywhere in `l` (JS `String.prototype.includes`)? -/
def containsSub (pat l : List Char) : Bool :=
  (firstOcc pat l).isSome

/-- Worker for `jsWordCount`; the flag records whether the previous character
belonged to a word. -/
def jsWordCountGo : Bool → List Char → Nat
  | _, [] => 0
  | inWord, c :: rest =>
    if isJsWs c then jsWordCountGo false rest
    else (if inWord then 0 else 1) + jsWordCountGo true rest

/-- The idiom `text.split(/\s+/).filter(w => w.length > 0).length` used for
word counts: the number of maximal non-whitespace runs. -/
def jsWordCount (l : List Char) : Nat :=
  jsWordCountGo false l

/-- Worker for `wsCollapse`; the flag records whether the previous character
was whitespace (already emitted as a single space). -/
def wsCollapseGo : Bool → List Char → List Char
  | _, [] => []
  | prevWs, c :: rest =>
    if isJsWs c then
      (if prevWs then [] else ['\x20']) ++ wsCollapseGo true rest
    else c :: wsCollapseGo false rest

/-- The regex replacement `.replace(/\s+/g, " ")`: every maximal whitespace
run becomes a single space. -/
def wsCollapse (l : List Char) : List Char :=
  wsCollapseGo false l

/-- Index of the last newline in `l`, if any. -/
def lastNlIdx : List Char → Option Nat
  | [] => none
  | c :: rest =>
    match lastNlIdx rest with
    | some i => some (i + 1)
    | none => if c = '\n' then some 0 else none

/-- Index of the last newline inside the leading whitespace run of `l`.  This
is where the greedy regex `\n\s*\n` ends a match that started just before
`l`. -/
def lastNlOfWsRun (l : List Char) : Option Nat :=
  lastNlIdx (l.takeWhile isJsWs)

/-- Worker for `nlCollapse`.  The fuel argument is a termination device only:
each step consumes at least one character, so fuel `l.length` never runs
out.  No claim depends on the fuel bound; the function is only evaluated on
concrete inputs. -/
def nlCollapseGo : Nat → List Char → List Char
  | 0, l => l
  | _ + 1, [] => []
  | fuel + 1, c :: rest =>
    if c = '\n' then
      match lastNlOfWsRun rest with
      | some k => '\n' :: nlCollapseGo fuel (rest.drop (k + 1))
      | none => '\n' :: nlCollapseGo fuel rest
    else c :: nlCollapseGo fuel rest

/-- The regex replacement `.replace(/\n\s*\n/g, "\n")`: a newline followed by
whitespace containing another newline collapses (greedily) to one newline. -/
def nlCollapse (l : List Char) : List Char :=
  nlCollapseGo l.length l

/-! ## Summarizer Adapter (`summarizeWithGemini`, src/services/summarizerService.js) -/

/-- The literal marker the reply is split on. -/
def kpMarker : List Char := "Key Points".toList

/-- The literal word stripped from the summary part. -/
def sumMarker : List Char := "Summary".toList

/-- The fallback summary the service substitutes for an empty one. -/
def noSummaryMsg : List Char := "No summary".toList

/-- The newline separator used for the key-point lines. -/
def nlSep : List Char := "\n".toList

/-- Result shape of `summarizeWithGemini`. -/
structure GeminiParsed where
  original : List Char
  summary : List Char
  keyPoints : List (List Char)
  deriving DecidableEq

/-- Split a block into lines, trim each, drop the empty ones
(`part.split("\n").map(l => l.trim()).filter(l => l.length > 0)`). -/
def cleanLines (s : List Char) : List (List Char) :=
  ((jsSplit nlSep s).map jsTrim).filter (fun line => line.length > 0)

/-- `summarizeWithGemini(text)` after the model replied with `rawText`:
`rawText.split("Key Points")` is destructured into `summaryPart` and
`keyPointsPart`; the summary is `summaryPart?.replace("Summary", "").trim()`
with the falsy (empty or undefined) case replaced by `"No summary"`, and the
key points are the cleaned lines of `keyPointsPart`, or `[]` when it is
undefined. -/
def summarizeWithGemini (text rawText : List Char) : GeminiParsed :=
  let parts := jsSplit kpMarker rawText
  let summaryPart : Option (List Char) := parts[0]?
  let keyPointsPart : Option (List Char) := parts[1]?
  let summary : List Char :=
    match summaryPart with
    | some sp =>
      let s := jsTrim (jsReplaceFirst sumMarker [] sp)
      if s = [] then noSummaryMsg else s
    | none => noSummaryMsg
  let keyPoints : List (List Char) :=
    match keyPointsPart with
    | some kp => cleanLines kp
    | none => []
  ⟨text, summary, keyPoints⟩

/-- The summary exactly as the claim words it: the content before the marker
with the literal `Summary` stripped and trimmed (no fallback). -/
def specSummaryC3 (raw : List Char) : List Char :=
  jsTrim (jsReplaceFirst sumMarker [] (beforeFirst kpMarker raw))

/-- The key points exactly as the claim words them: all content after the
first marker, split into trimmed non-empty lines. -/
def specKeyPointsC3 (raw : List Char) : List (List Char) :=
  cleanLines ((afterFirst kpMarker raw).getD [])

/-- Amended summary: as `specSummaryC3`, but an empty result falls back to
the literal `"No summary"`. -/
def specSummaryAmended (raw : List Char) : List Char :=
  let s := specSummaryC3 raw
  if s = [] then noSummaryMsg else s

/-- Amended key points: drawn only from the segment between the first
occurrence of the marker and the next occurrence (if any), because the JS
split cuts at every occurrence and only index 1 is kept. -/
def specKeyPointsAmended (raw : List Char) : List (List Char) :=
  match afterFirst kpMarker raw with
  | none => []
  | some rest => cleanLines (beforeFirst kpMarker rest)

/-- The summarize controller step guarding the AI result
(`if (!summaryResult || !summaryResult.summary) throw ...`): the service
result is rejected exactly when its summary is falsy (empty). -/
def controllerAISummaryCheck (text rawText : List Char) :
    Except (List Char) GeminiParsed :=
  let r := summarizeWithGemini text rawText
  if r.summary = [] then .error ("AI service returned invalid response".toList)
  else .ok r

/-! ## Summarize controller validation (src/controllers/summarizeController.js) -/

/-- Outcome of the validation phase of `summarizeController`: an early 400
error envelope, or control reaching the `summarizeWithGemini` call with the
trimmed text. -/
inductive ValidationOutcome where
  | reject400 (msg : List Char)
  | proceed (trimmed : List Char)
  deriving DecidableEq

/-- Validation phase of `summarizeController` for a request body whose `text`
field is `body` (`none` models a missing or non-string field).  Mirrors the
three checks: falsy or whitespace-only text, trimmed length under 10, trimmed
length over 50,000. -/
def summarizeValidate (body : Option (List Char)) : ValidationOutcome :=
  match body with
  | none => .reject400 ("Text content is required and cannot be empty".toList)
  | some text =>
    if (jsTrim text).length = 0 then
      .reject400 ("Text content is required and cannot be empty".toList)
    else
      let trimmedText := jsTrim text
      if trimmedText.length < 10 then
        .reject400 ("Text is too short. Please provide at least 10 characters.".toList)
      else if trimmedText.length > 50000 then
        .reject400 ("Text is too long. Please limit to 50,000 characters.".toList)
      else .proceed trimmedText

/-- Does the outcome answer the request with a 400 error envelope? -/
def respondsWith400 : ValidationOutcome → Bool
  | .reject400 _ => true
  | .proceed _ => false

/-- Does control reach the `summarizeWithGemini` call? -/
def invokesSummarizer : ValidationOutcome → Bool
  | .reject400 _ => false
  | .proceed _ => true

/-! ## Success responses (responseFormatter + controllers) -/

/-- Integer stand-in for the compression-ratio string
`(((origLen - sumLen) / origLen) * 100).toFixed(1) + "%"`: the ratio in
tenths of a percent, truncated.  The JS float formatting is not modelled
exactly; every claim using it depends only on it being a function of the two
lengths. -/
def compressionRatioTenths (origLen sumLen : Nat) : Int :=
  ((origLen : Int) - (sumLen : Int)) * 1000 / (origLen : Int)

/-- The `data` object of the summarize endpoint success envelope. -/
structure SummarizeData where
  id : Option Nat
  original : List Char
  summary : List Char
  keyPoints : List (List Char)
  originalLength : Nat
  summaryLength : Nat
  keyPointsCount : Nat
  wordCount : Nat
  compressionRatioTenths : Int
  processingTime : Nat
  deriving DecidableEq

/-- The summarize endpoint success envelope (`res.status(200).json(...)`). -/
structure SummarizeResponse where
  status : Nat
  success : Bool
  data : SummarizeData
  deriving DecidableEq

/-- The tail of `summarizeController` after a successful AI call: the
best-effort `saveSummary` call (its outcome is the `save` argument, an
assigned record id or a thrown error), then the 200 envelope.  A save error
is caught and only zeroes `historyId`; `now` stands for `Date.now()`. -/
def summarizeRespond (trimmed summary : List Char) (keyPoints : List (List Char))
    (now : Nat) (save : Except (List Char) Nat) : SummarizeResponse :=
  let historyId : Option Nat :=
    match save with
    | .ok savedId => some savedId
    | .error _ => none
  { status := 200
    success := true
    data :=
      { id := historyId
        original := trimmed
        summary := summary
        keyPoints := keyPoints
        originalLength := trimmed.length
        summaryLength := summary.length
        keyPointsCount := keyPoints.length
        wordCount := jsWordCount trimmed
        compressionRatioTenths := compressionRatioTenths trimmed.length summary.length
        processingTime := now } }

/-- The upload endpoint success envelope (`formatFileUploadResponse`); note
there is no field for the history record id. -/
structure UploadResponse where
  status : Nat
  success : Bool
  filename : List Char
  extractedText : List Char
  summary : List Char
  keyPoints : List (List Char)
  extractedLength : Nat
  summaryLength : Nat
  keyPointsCount : Nat
  compressionRatioTenths : Int
  wordCount : Nat
  summaryWordCount : Nat
  fileType : List Char
  fileSize : Nat
  processingTime : Nat
  deriving DecidableEq

/-- The tail of `uploadFileController` after a successful summarization: the
best-effort `saveSummary` call inside its own try/catch, then the 200
envelope built by `formatFileUploadResponse`.  Both branches of the catch
build the same response; the save outcome is never read. -/
def uploadFinish (filename extractedText summary : List Char)
    (keyPoints : List (List Char)) (fileType : List Char)
    (fileSize processingTime : Nat) (save : Except (List Char) Unit) :
    UploadResponse :=
  match save with
  | .ok _ =>
    { status := 200, success := true, filename, extractedText, summary, keyPoints
      extractedLength := extractedText.length
      summaryLength := summary.length
      keyPointsCount := keyPoints.length
      compressionRatioTenths := compressionRatioTenths extractedText.length summary.length
      wordCount := jsWordCount extractedText
      summaryWordCount := jsWordCount summary
      fileType := fileType, fileSize := fileSize, processingTime := processingTime }
  | .error _ =>
    { status := 200, success := true, filename, extractedText, summary, keyPoints
      extractedLength := extractedText.length
      summaryLength := summary.length
      keyPointsCount := keyPoints.length
      compressionRatioTenths := compressionRatioTenths extractedText.length summary.length
      wordCount := jsWordCount extractedText
      summaryWordCount := jsWordCount summary
      fileType := fileType, fileSize := fileSize, processingTime := processingTime }

/-! ## Association lists (documents, collections, user map) -/

section AssocList

variable {κ α : Type} [DecidableEq κ]

/-- First value bound to `k`, if any. -/
def alGet : List (κ × α) → κ → Option α
  | [], _ => none
  | p :: rest, k => if p.1 = k then some p.2 else alGet rest k

/-- Replace every binding of `k` (leaving other bindings untouched). -/
def alReplace : List (κ × α) → κ → α → List (κ × α)
  | [], _, _ => []
  | p :: rest, k, v => (if p.1 = k then (k, v) else p) :: alReplace rest k v

/-- Is `k` bound? -/
def alHasKey (l : List (κ × α)) (k : κ) : Bool :=
  (alGet l k).isSome

/-- Bind `k` to `v`: overwrite the existing binding, or append a new one. -/
def alSet (l : List (κ × α)) (k : κ) (v : α) : List (κ × α) :=
  if alHasKey l k then alReplace l k v else l ++ [(k, v)]

/-- Remove every binding of `k`. -/
def alErase : List (κ × α) → κ → List (κ × α)
  | [], _ => []
  | p :: rest, k => if p.1 = k then alErase rest k else p :: alErase rest k

end AssocList

/-! ## The Firestore model and the history service
(src/services/historyServices.js) -/

/-- A Firestore field value (the shapes the service actually stores). -/
inductive FVal where
  | s (v : List Char)
  | n (v : Nat)
  | b (v : Bool)
  | t (v : Nat)
  | ls (v : List (List Char))
  deriving DecidableEq

/-- A Firestore document: a field-name/value map. -/
abbrev Doc := List (List Char × FVal)

/-- A collection: documents keyed by store-assigned opaque ids. -/
abbrev Col := List (Nat × Doc)

/-- Firestore `docRef.update(data)` merge: set every top-level field of
`data` in the stored document. -/
def docMerge (base upd : Doc) : Doc :=
  upd.foldl (fun acc p => alSet acc p.1 p.2) base

/-- The document database as the service sees it: the global `history`
collection, the per-user `users/{uid}/summaries` subcollections, and the
source of store-assigned opaque ids (modelled as a counter). -/
structure Store where
  global : Col
  users : List (Nat × Col)
  nextId : Nat
  deriving DecidableEq

/-- The `users/{uid}/summaries` subcollection (empty when never written). -/
def userCol (s : Store) (uid : Nat) : Col :=
  (alGet s.users uid).getD []

/-- Write back a user subcollection. -/
def setUserCol (s : Store) (uid : Nat) (col : Col) : Store :=
  { s with users := alSet s.users uid col }

/-- Does any collection of the store bind this document id? -/
def storeHasId (s : Store) (id : Nat) : Bool :=
  alHasKey s.global id || s.users.any (fun p => alHasKey p.2 id)

/-- `getSummaryById(summaryId, userId)`: pick `users/{uid}/summaries` when a
user id is given, else the global `history` collection; a missing document
throws, and the catch block rewraps the message. -/
def getSummaryById (s : Store) (id : Nat) (userId : Option Nat) :
    Except (List Char) Doc × Store :=
  match userId with
  | some uid =>
    match alGet (userCol s uid) id with
    | none => (.error ("Failed to fetch summary: Summary not found".toList), s)
    | some d => (.ok d, s)
  | none =>
    match alGet s.global id with
    | none => (.error ("Failed to fetch summary: Summary not found".toList), s)
    | some d => (.ok d, s)

/-- `deleteSummary(summaryId, userId)`: with a user id the document is first
fetched and a missing one throws; without a user id `docRef.delete()` is
issued directly, and a Firestore delete of a non-existent document succeeds
as a no-op. -/
def deleteSummary (s : Store) (id : Nat) (userId : Option Nat) :
    Except (List Char) Nat × Store :=
  match userId with
  | some uid =>
    match alGet (userCol s uid) id with
    | none =>
      (.error ("Failed to delete summary: Summary not found or access denied".toList), s)
    | some _ =>
      (.ok id, setUserCol s uid (alErase (userCol s uid) id))
  | none =>
    (.ok id, { s with global := alErase s.global id })

/-- The update payload actually written:
`{ ...updates, updatedAt: new Date(), version: "2.0" }`. -/
def mkUpdateData (updates : Doc) (now : Nat) : Doc :=
  alSet (alSet updates ("updatedAt".toList) (.t now)) ("version".toList) (.s ("2.0".toList))

/-- `updateSummary(summaryId, updates, userId)`: with a user id the document
is first fetched and a missing one throws; `docRef.update` then merges the
update payload and the updated document is read back and returned.  Without a
user id Firestore itself rejects an update of a missing document (external
SDK behavior, surfaced through the same catch block). -/
def updateSummary (s : Store) (id : Nat) (updates : Doc) (userId : Option Nat)
    (now : Nat) : Except (List Char) Doc × Store :=
  match userId with
  | some uid =>
    match alGet (userCol s uid) id with
    | none =>
      (.error ("Failed to update summary: Summary not found or access denied".toList), s)
    | some d =>
      let newDoc := docMerge d (mkUpdateData updates now)
      (.ok newDoc, setUserCol s uid (alSet (userCol s uid) id newDoc))
  | none =>
    match alGet s.global id with
    | none =>
      (.error ("Failed to update summary: No document to update".toList), s)
    | some d =>
      let newDoc := docMerge d (mkUpdateData updates now)
      (.ok newDoc, { s with global := alSet s.global id newDoc })

/-! ## saveSummary and the controllers' persistence steps -/

/-- Optional metadata handed to `saveSummary`.  The JS spreads
`...(metadata.field && { field })`, so a falsy value (absent, empty string,
zero) is skipped; `none` models exactly the falsy case. -/
structure SaveMeta where
  filename : Option (List Char)
  fileType : Option (List Char)
  fileSize : Option Nat
  processingTime : Option Nat
  source : Option (List Char)

/-- The `summaryData` document literal built by `saveSummary`.  `now` stands
for `new Date()`; `original || ""` is the identity on our string model. -/
def mkSummaryData (original summary : List Char) (keyPoints : List (List Char))
    (meta : SaveMeta) (now : Nat) : Doc :=
  [ ("original".toList, .s original),
    ("originalContent".toList, .s original),
    ("summary".toList, .s summary),
    ("summarizedContent".toList, .s summary),
    ("keyPoints".toList, .ls keyPoints),
    ("createdAt".toList, .t now),
    ("timestamp".toList, .t now),
    ("wordCount".toList, .n (jsWordCount original)),
    ("summaryWordCount".toList, .n (jsWordCount summary)),
    ("keyPointsCount".toList, .n keyPoints.length) ]
  ++ (match meta.filename with | some f => [("filename".toList, FVal.s f)] | none => [])
  ++ (match meta.fileType with | some f => [("fileType".toList, FVal.s f)] | none => [])
  ++ (match meta.fileSize with | some v => [("fileSize".toList, FVal.n v)] | none => [])
  ++ (match meta.processingTime with | some v => [("processingTime".toList, FVal.n v)] | none => [])
  ++ [ ("version".toList, .s ("2.0".toList)),
       ("source".toList, .s (meta.source.getD ("web_app".toList))) ]

/-- `saveSummary(original, summary, keyPoints, metadata, userId)`: the
document is added to `users/{uid}/summaries` when a user id is given, and to
the global `history` collection otherwise; the store assigns the new id. -/
def saveSummary (s : Store) (original summary : List Char)
    (keyPoints : List (List Char)) (meta : SaveMeta) (userId : Option Nat)
    (now : Nat) : (Nat × Doc) × Store :=
  let d := mkSummaryData original summary keyPoints meta now
  let id := s.nextId
  match userId with
  | some uid =>
    ((id, d), { setUserCol s uid (userCol s uid ++ [(id, d)]) with nextId := id + 1 })
  | none =>
    ((id, d), { s with global := s.global ++ [(id, d)], nextId := id + 1 })

/-- The history-save step of `summarizeController`:
`userId = req.user?.uid || null` and then `saveSummary(trimmedText, summary,
keyPoints, { source: "text_input", wordCount }, userId)` (the `wordCount`
metadata entry is ignored by `saveSummary`).  Returns the `historyId` used in
the response and the store after the save. -/
def summarizeControllerSave (s : Store) (user : Option Nat)
    (trimmed summary : List Char) (keyPoints : List (List Char)) (now : Nat) :
    Option Nat × Store :=
  let userId : Option Nat := user
  let r := saveSummary s trimmed summary keyPoints
    ⟨none, none, none, none, some ("text_input".toList)⟩ userId now
  (some r.1.1, r.2)

/-- The JWT payload shape the Next.js handlers rely on. -/
structure JwtUser where
  userId : Nat
  role : List Char
  deriving DecidableEq

/-- A document of the MongoDB `extractions` collection (part_000 handler). -/
structure ExtractionDoc where
  userId : Nat
  filename : List Char
  fileType : List Char
  mimetype : List Char
  fileSize : Nat
  extractedText : List Char
  extractedLength : Nat
  wordCount : Nat
  createdAt : Nat
  version : List Char
  deriving DecidableEq

/-- The MongoDB extractions collection with its id source. -/
structure EStore where
  docs : List (Nat × ExtractionDoc)
  nextId : Nat
  deriving DecidableEq

/-- The persistence gate of the part_000 upload handler:
`if (req.user && req.user.role === "user")` insert an extraction document,
else skip the database entirely. -/
def uploadHandlerSave (es : EStore) (user : Option JwtUser)
    (filename fileType mimetype : List Char) (size : Nat) (text : List Char)
    (now : Nat) : Option Nat × EStore :=
  match user with
  | some u =>
    if u.role = "user".toList then
      let d : ExtractionDoc :=
        { userId := u.userId, filename, fileType, mimetype, fileSize := size
          extractedText := text, extractedLength := text.length
          wordCount := jsWordCount text, createdAt := now
          version := "3.0".toList }
      (some es.nextId, { docs := es.docs ++ [(es.nextId, d)], nextId := es.nextId + 1 })
    else (none, es)
  | none => (none, es)

/-! ## OCR extraction (lib/fileProcessor.js and the part_006 route) -/

/-- A JS error is identified by its message. -/
abbrev JsErr := List Char

/-- The raw result of `worker.recognize` (`data.text`, `data.confidence`;
the confidence is only logged, so its float nature is irrelevant). -/
structure OcrRaw where
  text : List Char
  confidence : Nat
  deriving DecidableEq

/-- The catch block of `extractTextFromImage`: an error mentioning `worker`
becomes the initialization message, anything else is prefixed. -/
def classifyOcrError (e : JsErr) : JsErr :=
  if containsSub ("worker".toList) e then
    "OCR service initialization failed. Please try again.".toList
  else "Image text extraction failed: ".toList ++ e

/-- The OCR text cleanup
`.replace(/\n\s*\n/g, "\n").replace(/\s+/g, " ").trim()`. -/
def ocrCleanText (text : List Char) : List Char :=
  jsTrim (wsCollapse (nlCollapse text))

/-- `extractTextFromImage(buffer)` from lib/fileProcessor.js, with every
awaited worker call an explicit outcome parameter.  The second component
counts invocations of `worker.terminate()`: the `finally` block runs it
whenever the worker variable was assigned (worker creation succeeded), and
swallows its error, so the `_term` outcome is never read. -/
def extractTextFromImage (create setParams : Except JsErr Unit)
    (recog : Except JsErr OcrRaw) (_term : Except JsErr Unit) :
    Except JsErr (List Char) × Nat :=
  match create with
  | .error e => (.error (classifyOcrError e), 0)
  | .ok _ =>
    match setParams with
    | .error e => (.error (classifyOcrError e), 1)
    | .ok _ =>
      match recog with
      | .error e => (.error (classifyOcrError e), 1)
      | .ok raw =>
        let cleanText := ocrCleanText raw.text
        if cleanText.length < 5 then
          (.error (classifyOcrError
            ("No readable text found in image. Please ensure the image contains clear, high-contrast text.".toList)), 1)
        else (.ok cleanText, 1)

/-- The standalone OCR route (part_006): body read, `createWorker`,
`worker.recognize`, `await worker.terminate()`, then the 200 response; any
throw lands in the catch as a 500.  The second component again counts
invocations of `worker.terminate()` — it is only reached after a successful
recognition. -/
def ocrRouteHandler (method : List Char) (bodyRead : Except JsErr (List Char))
    (create : Except JsErr Unit) (recog : Except JsErr OcrRaw)
    (term : Except JsErr Unit) : (Nat × Except JsErr (List Char)) × Nat :=
  if method = "POST".toList then
    match bodyRead with
    | .error e => ((500, .error e), 0)
    | .ok _buf =>
      match create with
      | .error e => ((500, .error e), 0)
      | .ok _ =>
        match recog with
        | .error e => ((500, .error e), 0)
        | .ok raw =>
          match term with
          | .error e => ((500, .error e), 1)
          | .ok _ => ((200, .ok raw.text), 1)
  else ((405, .error ("Method not allowed".toList)), 0)

/-! ## Auth middleware (lib/auth.js) -/

/-- Outcome of an auth middleware: either the wrapped handler runs with
`req.user` set, or the middleware itself ends the request. -/
inductive AuthOutcome where
  | proceed (user : Option JwtUser)
  | reject (status : Nat) (msg : List Char)
  deriving DecidableEq

/-- The header test `authHeader?.startsWith("Bearer ")`. -/
def bearerMarker : List Char := "Bearer ".toList

/-- Credential selection shared by both middlewares:
`authHeader?.startsWith("Bearer ") ? authHeader.slice(7) : cookieToken`. -/
def effectiveToken (authHeader cookieToken : Option (List Char)) :
    Option (List Char) :=
  match authHeader with
  | some h => if leadsWith bearerMarker h then some (h.drop 7) else cookieToken
  | none => cookieToken

/-- `allowGuest(handler)`: a missing or empty token, or one the verifier
rejects, degrades to `req.user = null`; the handler is invoked on every
path.  `verify` is the outcome of `jwt.verify` on a given token. -/
def allowGuest (authHeader cookieToken : Option (List Char))
    (verify : List Char → Except JsErr JwtUser) : AuthOutcome :=
  match effectiveToken authHeader cookieToken with
  | none => .proceed none
  | some t =>
    if t = [] then .proceed none
    else
      match verify t with
      | .ok u => .proceed (some u)
      | .error _ => .proceed none

/-- `requireAuth(handler)`: the contrasting middleware that does end the
request with a 401 on a missing or invalid token. -/
def requireAuth (authHeader cookieToken : Option (List Char))
    (verify : List Char → Except JsErr JwtUser) : AuthOutcome :=
  match effectiveToken authHeader cookieToken with
  | none => .reject 401 ("Authentication required".toList)
  | some t =>
    if t = [] then .reject 401 ("Authentication required".toList)
    else
      match verify t with
      | .ok u => .proceed (some u)
      | .error _ => .reject 401 ("Invalid or expired token".toList)

/-! ## Concrete sample inputs for witnesses and counterexamples -/

/-- A 50,001-character text whose trimmed form has exactly 50,000
characters. -/
def bigText : List Char := List.replicate 50000 'a' ++ ['\x20']

/-- A stored summary document owned by user 1 in the sample store. -/
def sampleDoc : Doc := [("summary".toList, .s ("hi".toList))]

/-- An update payload touching `summary` and a new field. -/
def sampleUpd : Doc :=
  [("summary".toList, .s ("new".toList)), ("note".toList, .s ("x".toList))]

/-- A store in which user 1 owns the document with id 7. -/
def sampleStore : Store := ⟨[], [(1, [(7, sampleDoc)])], 10⟩

/-- A verifier accepting exactly the token `tok`. -/
def sampleVerify (t : List Char) : Except JsErr JwtUser :=
  if t = "tok".toList then .ok ⟨5, "user".toList⟩ else .error ("bad".toList)

deriving instance DecidableEq for Except

/-! ## Lemmas on the JavaScript string primitives -/

theorem leadsWith_length {pat l : List Char} (h : leadsWith pat l = true) :
    pat.length ≤ l.length := by
  induction pat generalizing l with
  | nil => simp
  | cons p ps ih =>
    cases l with
    | nil => simp [leadsWith] at h
    | cons c cs =>
      simp only [leadsWith, Bool.and_eq_true] at h
      simpa using Nat.succ_le_succ (ih h.2)

theorem firstOcc_bound {pat l : List Char} {i : Nat} (hpat : pat ≠ [])
    (h : firstOcc pat l = some i) : i + pat.length ≤ l.length := by
  induction l generalizing i with
  | nil =>
    cases pat with
    | nil => exact absurd rfl hpat
    | cons p ps => simp [firstOcc, leadsWith] at h
  | cons c cs ih =>
    rw [firstOcc] at h
    by_cases hl : leadsWith pat (c :: cs) = true
    · rw [if_pos hl] at h
      cases h
      simpa using leadsWith_length hl
    · rw [if_neg hl] at h
      cases hfo : firstOcc pat cs with
      | none => rw [hfo] at h; simp at h
      | some j =>
        rw [hfo] at h
        simp at h
        have := ih hfo
        simp only [List.length_cons]
        omega

theorem sep_length_pos {sep : List Char} (hsep : sep ≠ []) : 1 ≤ sep.length := by
  cases sep with
  | nil => exact absurd rfl hsep
  | cons _ _ => simp

theorem jsSplitGo_fuel {sep : List Char} (hsep : sep ≠ []) :
    ∀ f₁ f₂ l, l.length < f₁ → l.length < f₂ →
      jsSplitGo sep f₁ l = jsSplitGo sep f₂ l := by
  intro f₁
  induction f₁ with
  | zero => intro f₂ l h₁ _; exact absurd h₁ (Nat.not_lt_zero _)
  | succ f ih =>
    intro f₂ l h₁ h₂
    cases f₂ with
    | zero => exact absurd h₂ (Nat.not_lt_zero _)
    | succ g =>
      simp only [jsSplitGo]
      cases hfo : firstOcc sep l with
      | none => rfl
      | some i =>
        have hb := firstOcc_bound hsep hfo
        have hs := sep_length_pos hsep
        have hd : (l.drop (i + sep.length)).length = l.length - (i + sep.length) :=
          List.length_drop _ _
        simp only []
        congr 1
        exact ih g (l.drop (i + sep.length)) (by omega) (by omega)

theorem jsSplit_unfold {sep l : List Char} (hsep : sep ≠ []) :
    jsSplit sep l =
      match firstOcc sep l with
      | none => [l]
      | some i => l.take i :: jsSplit sep (l.drop (i + sep.length)) := by
  rw [jsSplit, if_neg hsep]
  rw [show l.length + 1 = l.length + 1 from rfl]
  simp only [jsSplitGo]
  cases hfo : firstOcc sep l with
  | none => rfl
  | some i =>
    have hb := firstOcc_bound hsep hfo
    have hs := sep_length_pos hsep
    have hd : (l.drop (i + sep.length)).length = l.length - (i + sep.length) :=
      List.length_drop _ _
    simp only []
    congr 1
    rw [jsSplit, if_neg hsep]
    exact jsSplitGo_fuel hsep l.length ((l.drop (i + sep.length)).length + 1)
      (l.drop (i + sep.length)) (by omega) (Nat.lt_succ_self _)

theorem jsSplit_head {sep l : List Char} (hsep : sep ≠ []) :
    (jsSplit sep l)[0]? = some (beforeFirst sep l) := by
  rw [jsSplit_unfold hsep, beforeFirst]
  cases hfo : firstOcc sep l <;> simp [hfo]

theorem jsSplit_second {sep l : List Char} (hsep : sep ≠ []) :
    (jsSplit sep l)[1]? =
      (afterFirst sep l).map (fun rest => beforeFirst sep rest) := by
  rw [jsSplit_unfold hsep, afterFirst]
  cases hfo : firstOcc sep l with
  | none => simp [hfo]
  | some i => simp [hfo, jsSplit_head hsep]

theorem jsTrim_length_le (l : List Char) : (jsTrim l).length ≤ l.length := by
  rw [jsTrim]
  rw [List.length_reverse]
  calc ((l.dropWhile isJsWs).reverse.dropWhile isJsWs).length
      ≤ (l.dropWhile isJsWs).reverse.length :=
        (List.dropWhile_sublist _).length_le
    _ = (l.dropWhile isJsWs).length := List.length_reverse _
    _ ≤ l.length := (List.dropWhile_sublist _).length_le

theorem dropWhile_replicate_a (n : Nat) :
    List.dropWhile isJsWs (List.replicate n 'a') = List.replicate n 'a' := by
  cases n with
  | zero => rfl
  | succ m =>
    rw [List.replicate_succ]
    exact List.dropWhile_cons_of_neg (by decide)

theorem jsTrim_bigText : jsTrim bigText = List.replicate 50000 'a' := by
  have hsplit : List.replicate 50000 'a' ++ ['\x20'] =
      'a' :: (List.replicate 49999 'a' ++ ['\x20']) := by
    rw [show (50000 : Nat) = 49999 + 1 from rfl, List.replicate_succ, List.cons_append]
  have h1 : List.dropWhile isJsWs (List.replicate 50000 'a' ++ ['\x20']) =
      List.replicate 50000 'a' ++ ['\x20'] := by
    rw [hsplit]
    exact List.dropWhile_cons_of_neg (by decide)
  rw [bigText, jsTrim, h1, List.reverse_append, List.reverse_replicate]
  rw [show (['\x20'] : List Char).reverse = ['\x20'] from rfl, List.singleton_append]
  rw [List.dropWhile_cons_of_pos (by decide), dropWhile_replicate_a,
    List.reverse_replicate]

theorem validate_bigText :
    summarizeValidate (some bigText) = .proceed (List.replicate 50000 'a') := by
  simp only [summarizeValidate, jsTrim_bigText, List.length_replicate]
  norm_num

theorem kpMarker_ne_nil : kpMarker ≠ [] := by decide

theorem gemini_summary_eq (t raw : List Char) :
    (summarizeWithGemini t raw).summary = specSummaryAmended raw := by
  simp only [summarizeWithGemini, jsSplit_head kpMarker_ne_nil,
    specSummaryAmended, specSummaryC3]

theorem gemini_keyPoints_eq (t raw : List Char) :
    (summarizeWithGemini t raw).keyPoints = specKeyPointsAmended raw := by
  simp only [summarizeWithGemini, jsSplit_second kpMarker_ne_nil,
    specKeyPointsAmended]
  cases hfo : afterFirst kpMarker raw <;> simp [hfo]

/-! ## Lemmas on association lists -/

section AssocLemmas

variable {κ α : Type} [DecidableEq κ]

theorem alGet_mem {l : List (κ × α)} {k : κ} {v : α} (h : alGet l k = some v) :
    (k, v) ∈ l := by
  induction l with
  | nil => simp [alGet] at h
  | cons p rest ih =>
    rw [alGet] at h
    by_cases hp : p.1 = k
    · rw [if_pos hp] at h
      cases h
      subst hp
      exact List.mem_cons_self _ _
    · rw [if_neg hp] at h
      exact List.mem_cons_of_mem _ (ih h)

theorem alGet_none_iff {l : List (κ × α)} {k : κ} :
    alGet l k = none ↔ k ∉ l.map Prod.fst := by
  induction l with
  | nil => simp [alGet]
  | cons p rest ih =>
    rw [alGet]
    by_cases hp : p.1 = k
    · simp [hp]
    · simp [hp, ih, Ne.symm hp]

theorem alGet_alReplace_other {l : List (κ × α)} {k k' : κ} {v : α}
    (hne : k' ≠ k) : alGet (alReplace l k v) k' = alGet l k' := by
  induction l with
  | nil => rfl
  | cons p rest ih =>
    simp only [alReplace, alGet]
    by_cases hp : p.1 = k
    · simp [hp, Ne.symm hne, ih]
    · by_cases hp' : p.1 = k'
      · simp [hp, hp', hne]
      · simp [hp, hp', ih]

theorem alGet_alReplace_same {l : List (κ × α)} {k : κ} {v w : α}
    (h : alGet l k = some w) : alGet (alReplace l k v) k = some v := by
  induction l with
  | nil => simp [alGet] at h
  | cons p rest ih =>
    rw [alGet] at h
    simp only [alReplace, alGet]
    by_cases hp : p.1 = k
    · simp [hp]
    · rw [if_neg hp] at h
      simp [hp, ih h]

theorem alGet_append_single_same {l : List (κ × α)} {k : κ} {v : α}
    (h : alGet l k = none) : alGet (l ++ [(k, v)]) k = some v := by
  induction l with
  | nil => simp [alGet]
  | cons p rest ih =>
    rw [alGet] at h
    by_cases hp : p.1 = k
    · rw [if_pos hp] at h
      cases h
    · rw [if_neg hp] at h
      rw [List.cons_append, alGet, if_neg hp]
      exact ih h

theorem alGet_append_single_other {l : List (κ × α)} {k k' : κ} {v : α}
    (hne : k' ≠ k) : alGet (l ++ [(k, v)]) k' = alGet l k' := by
  induction l with
  | nil => simp [alGet, Ne.symm hne]
  | cons p rest ih =>
    rw [List.cons_append, alGet, alGet]
    by_cases hp : p.1 = k'
    · rw [if_pos hp, if_pos hp]
    · rw [if_neg hp, if_neg hp]
      exact ih

theorem alGet_alSet_same {l : List (κ × α)} {k : κ} {v : α} :
    alGet (alSet l k v) k = some v := by
  rw [alSet, alHasKey]
  cases hg : alGet l k with
  | none => simpa using alGet_append_single_same hg
  | some w => simpa using alGet_alReplace_same (v := v) hg

theorem alGet_alSet_other {l : List (κ × α)} {k k' : κ} {v : α} (hne : k' ≠ k) :
    alGet (alSet l k v) k' = alGet l k' := by
  rw [alSet]
  by_cases hk : alHasKey l k
  · rw [if_pos hk]
    exact alGet_alReplace_other hne
  · rw [if_neg hk]
    exact alGet_append_single_other hne

theorem alGet_alErase_same {l : List (κ × α)} {k : κ} :
    alGet (alErase l k) k = none := by
  induction l with
  | nil => rfl
  | cons p rest ih =>
    rw [alErase]
    by_cases hp : p.1 = k
    · rw [if_pos hp]
      exact ih
    · rw [if_neg hp, alGet, if_neg hp]
      exact ih

theorem alErase_of_absent {l : List (κ × α)} {k : κ} (h : alGet l k = none) :
    alErase l k = l := by
  induction l with
  | nil => rfl
  | cons p rest ih =>
    rw [alGet] at h
    by_cases hp : p.1 = k
    · rw [if_pos hp] at h
      cases h
    · rw [if_neg hp] at h
      rw [alErase, if_neg hp, ih h]

theorem alReplace_keys {l : List (κ × α)} {k : κ} {v : α} :
    (alReplace l k v).map Prod.fst = l.map Prod.fst := by
  induction l with
  | nil => rfl
  | cons p rest ih =>
    rw [alReplace, List.map_cons, List.map_cons, ih]
    by_cases hp : p.1 = k
    · rw [if_pos hp, hp]
    · rw [if_neg hp]

theorem alSet_keys_nodup {l : List (κ × α)} {k : κ} {v : α}
    (h : (l.map Prod.fst).Nodup) : ((alSet l k v).map Prod.fst).Nodup := by
  rw [alSet]
  by_cases hk : alHasKey l k
  · rw [if_pos hk, alReplace_keys]
    exact h
  · rw [if_neg hk, List.map_append]
    refine h.append (List.nodup_singleton _) ?_
    intro x hx hx1
    simp only [List.map_cons, List.map_nil, List.mem_singleton] at hx1
    subst hx1
    have hnone : alGet l x = none := by
      rw [alHasKey] at hk
      cases hg : alGet l x with
      | none => rfl
      | some w => rw [hg] at hk; simp at hk
    exact (alGet_none_iff.1 hnone) hx

end AssocLemmas

/-! ## Lemmas on the store and the document merge -/

theorem userCol_setUserCol_same (s : Store) (u : Nat) (col : Col) :
    userCol (setUserCol s u col) u = col := by
  simp [userCol, setUserCol, alGet_alSet_same]

theorem userCol_none_of_not_storeHasId (s : Store) (u x : Nat)
    (h : storeHasId s x = false) : alGet (userCol s u) x = none := by
  rw [storeHasId, Bool.or_eq_false_iff] at h
  obtain ⟨-, h2⟩ := h
  rw [userCol]
  cases hu : alGet s.users u with
  | none => rfl
  | some col =>
    rw [Option.getD_some]
    have hm : (u, col) ∈ s.users := alGet_mem hu
    rw [List.any_eq_false] at h2
    have := h2 _ hm
    rw [alHasKey] at this
    cases hg : alGet col x with
    | none => rfl
    | some d => rw [hg] at this; simp at this

theorem docMerge_get_absent {base upd : Doc} {k : List Char}
    (h : alGet upd k = none) : alGet (docMerge base upd) k = alGet base k := by
  induction upd generalizing base with
  | nil => rfl
  | cons p rest ih =>
    rw [alGet] at h
    by_cases hp : p.1 = k
    · rw [if_pos hp] at h
      cases h
    · rw [if_neg hp] at h
      show alGet (docMerge (alSet base p.1 p.2) rest) k = alGet base k
      rw [ih h, alGet_alSet_other (fun hk => hp hk.symm)]

theorem docMerge_get_present {base upd : Doc} {k : List Char} {v : FVal}
    (hnd : (upd.map Prod.fst).Nodup) (h : alGet upd k = some v) :
    alGet (docMerge base upd) k = some v := by
  induction upd generalizing base with
  | nil => simp [alGet] at h
  | cons p rest ih =>
    rw [List.map_cons, List.nodup_cons] at hnd
    rw [alGet] at h
    by_cases hp : p.1 = k
    · rw [if_pos hp] at h
      cases h
      have hrest : alGet rest k = none := by
        rw [alGet_none_iff]
        rw [← hp]
        exact hnd.1
      show alGet (docMerge (alSet base p.1 p.2) rest) k = some p.2
      rw [docMerge_get_absent hrest, ← hp, alGet_alSet_same]
    · rw [if_neg hp] at h
      show alGet (docMerge (alSet base p.1 p.2) rest) k = some v
      exact ih hnd.2 h

theorem updatedAt_ne_version : ("updatedAt".toList : List Char) ≠ "version".toList := by
  decide

theorem mkUpdateData_get_updatedAt (upd : Doc) (now : Nat) :
    alGet (mkUpdateData upd now) ("updatedAt".toList) = some (.t now) := by
  rw [mkUpdateData, alGet_alSet_other updatedAt_ne_version, alGet_alSet_same]

theorem mkUpdateData_get_version (upd : Doc) (now : Nat) :
    alGet (mkUpdateData upd now) ("version".toList) = some (.s ("2.0".toList)) := by
  rw [mkUpdateData, alGet_alSet_same]

theorem mkUpdateData_get_other {upd : Doc} {now : Nat} {k : List Char}
    (h1 : k ≠ "updatedAt".toList) (h2 : k ≠ "version".toList) :
    alGet (mkUpdateData upd now) k = alGet upd k := by
  rw [mkUpdateData, alGet_alSet_other h2, alGet_alSet_other h1]

theorem mkUpdateData_keys_nodup {upd : Doc} {now : Nat}
    (h : (upd.map Prod.fst).Nodup) :
    ((mkUpdateData upd now).map Prod.fst).Nodup := by
  rw [mkUpdateData]
  exact alSet_keys_nodup (alSet_keys_nodup h)

/-! ## Claim theorems -/

/-- C1 (counterexample): the claim as stated is false — `bigText` has raw
length 50,001 > 50,000, yet the validation passes (the code checks the
trimmed length, which is 50,000) and `summarizeWithGemini` is invoked, with
no 400 response. -/
theorem summarize_validation_raw_length_counterexample :
    bigText.length > 50000 ∧
    invokesSummarizer (summarizeValidate (some bigText)) = true ∧
    respondsWith400 (summarizeValidate (some bigText)) = false := by
  refine ⟨?_, ?_, ?_⟩
  · rw [bigText, List.length_append, List.length_replicate]
    norm_num
  · rw [validate_bigText]
    rfl
  · rw [validate_bigText]
    rfl

/-- C1 (amended): for every pasted text whose raw length is under 10, or
whose trimmed length exceeds 50,000, `POST /api/summarize` answers with the
400 error envelope and `summarizeWithGemini` is never invoked. -/
theorem summarize_validation_bounds (text : List Char)
    (h : text.length < 10 ∨ (jsTrim text).length > 50000) :
    respondsWith400 (summarizeValidate (some text)) = true ∧
    invokesSummarizer (summarizeValidate (some text)) = false := by
  have hle : (jsTrim text).length ≤ text.length := jsTrim_length_le text
  simp only [summarizeValidate]
  by_cases h0 : (jsTrim text).length = 0
  · rw [if_pos h0]
    exact ⟨rfl, rfl⟩
  · rw [if_neg h0]
    by_cases h10 : (jsTrim text).length < 10
    · rw [if_pos h10]
      exact ⟨rfl, rfl⟩
    · have hbig : (jsTrim text).length > 50000 := by
        rcases h with hlt | hgt
        · omega
        · exact hgt
      rw [if_neg h10, if_pos hbig]
      exact ⟨rfl, rfl⟩

/-- C1 (witness): the nine-character text `too short` is rejected with a 400
and the summarizer is not invoked. -/
theorem summarize_validation_bounds_witness :
    (("too short".toList : List Char).length < 10 ∨
      (jsTrim ("too short".toList)).length > 50000) ∧
    (respondsWith400 (summarizeValidate (some ("too short".toList))) = true ∧
      invokesSummarizer (summarizeValidate (some ("too short".toList))) = false) :=
  ⟨Or.inl (by decide),
    summarize_validation_bounds ("too short".toList) (Or.inl (by decide))⟩

/-- C2: when the post-summarization history save throws, `summarizeController`
still answers 200 with the identical success envelope, the only difference
being the persisted-record id (`none` instead of the assigned id); the upload
controller response does not depend on its save outcome at all. -/
theorem save_failure_does_not_affect_response (trimmed summary : List Char)
    (keyPoints : List (List Char)) (now savedId : Nat) (e : List Char) :
    summarizeRespond trimmed summary keyPoints now (.error e) =
      { summarizeRespond trimmed summary keyPoints now (.ok savedId) with
        data := { (summarizeRespond trimmed summary keyPoints now (.ok savedId)).data
                  with id := none } } ∧
    (summarizeRespond trimmed summary keyPoints now (.error e)).status = 200 ∧
    (summarizeRespond trimmed summary keyPoints now (.error e)).success = true ∧
    (summarizeRespond trimmed summary keyPoints now (.error e)).data.summary = summary ∧
    (summarizeRespond trimmed summary keyPoints now (.error e)).data.keyPoints = keyPoints ∧
    (summarizeRespond trimmed summary keyPoints now (.ok savedId)).data.id = some savedId ∧
    ∀ (fn xt ft : List Char) (fs pt : Nat) (eu : List Char),
      uploadFinish fn xt summary keyPoints ft fs pt (.error eu) =
        uploadFinish fn xt summary keyPoints ft fs pt (.ok ()) :=
  ⟨rfl, rfl, rfl, rfl, rfl, rfl, fun _ _ _ _ _ _ => rfl⟩

/-- C3 (counterexample): on a reply containing the marker twice, the code
keeps only the segment between the first and second occurrence as key points
(the claim demands all content after the first marker), and an empty summary
becomes the literal `No summary` (the claim demands the stripped, trimmed
prefix verbatim). -/
theorem summarizer_parse_counterexample :
    summarizeWithGemini [] ("Key Points\na\nKey Points\nb".toList) =
      ⟨[], "No summary".toList, ["a".toList]⟩ ∧
    specSummaryC3 ("Key Points\na\nKey Points\nb".toList) = [] ∧
    specKeyPointsC3 ("Key Points\na\nKey Points\nb".toList) =
      ["a".toList, "Key Points".toList, "b".toList] := by
  refine ⟨?_, ?_, ?_⟩ <;> rfl

/-- C3 (amended): `summarizeWithGemini` returns the input text unchanged, the
summary equal to the content before the first marker with `Summary` stripped
and trimmed — except that an empty result becomes the literal `No summary` —
and the key points taken from the segment between the first marker and the
next occurrence only, split into trimmed non-empty lines, order preserved. -/
theorem summarizer_parse_amended (t raw : List Char) :
    summarizeWithGemini t raw =
      ⟨t, specSummaryAmended raw, specKeyPointsAmended raw⟩ := by
  have h0 : (summarizeWithGemini t raw).original = t := rfl
  have h1 := gemini_summary_eq t raw
  have h2 := gemini_keyPoints_eq t raw
  calc summarizeWithGemini t raw
      = ⟨(summarizeWithGemini t raw).original, (summarizeWithGemini t raw).summary,
          (summarizeWithGemini t raw).keyPoints⟩ := rfl
    _ = ⟨t, specSummaryAmended raw, specKeyPointsAmended raw⟩ := by rw [h0, h1, h2]

/-- C4: for a record with id `X` owned by identity `A`, a distinct identity
`B` (whose collection does not bind `X`; store-assigned ids are unique) gets
from `getSummaryById`, `deleteSummary` and `updateSummary` exactly the
behavior of a completely fresh id `X'`: the same NotFound error, no state
change, and hence no signal that the record exists. -/
theorem history_ownership_isolation (s : Store) (A B X Xf now : Nat)
    (d upd : Doc)
    (hA : alGet (userCol s A) X = some d)
    (hAB : B ≠ A)
    (hB : alGet (userCol s B) X = none)
    (hXf : storeHasId s Xf = false) :
    getSummaryById s X (some B) = getSummaryById s Xf (some B) ∧
    deleteSummary s X (some B) = deleteSummary s Xf (some B) ∧
    updateSummary s X upd (some B) now = updateSummary s Xf upd (some B) now ∧
    getSummaryById s X (some B) =
      (.error ("Failed to fetch summary: Summary not found".toList), s) ∧
    deleteSummary s X (some B) =
      (.error ("Failed to delete summary: Summary not found or access denied".toList), s) ∧
    updateSummary s X upd (some B) now =
      (.error ("Failed to update summary: Summary not found or access denied".toList), s) := by
  have hBf : alGet (userCol s B) Xf = none := userCol_none_of_not_storeHasId s B Xf hXf
  refine ⟨?_, ?_, ?_, ?_, ?_, ?_⟩ <;>
    simp [getSummaryById, deleteSummary, updateSummary, hB, hBf]

/-- C4 (witness): in the sample store, user 1 owns document 7; user 2 calling
the three operations on id 7 gets exactly the fresh-id (id 9) behavior. -/
theorem history_ownership_isolation_witness :
    getSummaryById sampleStore 7 (some 2) = getSummaryById sampleStore 9 (some 2) ∧
    deleteSummary sampleStore 7 (some 2) = deleteSummary sampleStore 9 (some 2) ∧
    updateSummary sampleStore 7 sampleUpd (some 2) 0 =
      updateSummary sampleStore 9 sampleUpd (some 2) 0 ∧
    getSummaryById sampleStore 7 (some 2) =
      (.error ("Failed to fetch summary: Summary not found".toList), sampleStore) ∧
    deleteSummary sampleStore 7 (some 2) =
      (.error ("Failed to delete summary: Summary not found or access denied".toList), sampleStore) ∧
    updateSummary sampleStore 7 sampleUpd (some 2) 0 =
      (.error ("Failed to update summary: Summary not found or access denied".toList), sampleStore) :=
  history_ownership_isolation sampleStore 1 2 7 9 0 sampleDoc sampleUpd
    rfl (by decide) rfl (by decide)

/-- C6 (counterexample): an unscoped delete (no owner id) of an id absent
from the store succeeds — the Firestore delete is a no-op — instead of
failing with NotFoundError as the claim demands. -/
theorem delete_missing_unscoped_counterexample :
    alGet (Store.global ⟨[], [], 0⟩) 5 = none ∧
    deleteSummary ⟨[], [], 0⟩ 5 none = (.ok 5, ⟨[], [], 0⟩) := by
  refine ⟨rfl, ?_⟩
  rfl

/-- C6 (amended): an owner-scoped delete of an id not in that owner's
collection fails with the NotFound error and changes nothing, and after an
owner-scoped delete the same delete never succeeds a second time; but an
unscoped delete of a missing id succeeds as a store no-op, so the
NotFoundError guarantee holds only for owner-scoped deletes. -/
theorem delete_missing_id_behavior :
    (∀ (s : Store) (u X : Nat), alGet (userCol s u) X = none →
      deleteSummary s X (some u) =
        (.error ("Failed to delete summary: Summary not found or access denied".toList), s)) ∧
    (∀ (s : Store) (u X : Nat) (d : Doc), alGet (userCol s u) X = some d →
      (deleteSummary (deleteSummary s X (some u)).2 X (some u)).1 =
        .error ("Failed to delete summary: Summary not found or access denied".toList)) ∧
    (∀ (s : Store) (X : Nat), alGet s.global X = none →
      deleteSummary s X none = (.ok X, s)) := by
  refine ⟨?_, ?_, ?_⟩
  · intro s u X h
    simp [deleteSummary, h]
  · intro s u X d h
    simp only [deleteSummary, h]
    rw [userCol_setUserCol_same, alGet_alErase_same]
  · intro s X h
    simp [deleteSummary, alErase_of_absent h]

/-- C6 (witness): concrete instances of all three parts — a scoped delete of
a missing id fails, a repeated scoped delete of document 7 fails the second
time, and an unscoped delete of a missing id succeeds. -/
theorem delete_missing_id_behavior_witness :
    deleteSummary sampleStore 9 (some 1) =
      (.error ("Failed to delete summary: Summary not found or access denied".toList),
        sampleStore) ∧
    (deleteSummary (deleteSummary sampleStore 7 (some 1)).2 7 (some 1)).1 =
      .error ("Failed to delete summary: Summary not found or access denied".toList) ∧
    deleteSummary sampleStore 5 none = (.ok 5, sampleStore) :=
  ⟨delete_missing_id_behavior.1 sampleStore 1 9 rfl,
    delete_missing_id_behavior.2.1 sampleStore 1 7 sampleDoc rfl,
    delete_missing_id_behavior.2.2 sampleStore 5 rfl⟩

/-- C10: updating an existing record merges the payload verbatim (no field
whitelist), always overwrites `updatedAt` with the current time and `version`
with the literal 2.0, and leaves every stored field not named in the payload
(and distinct from those two) unchanged; the merged document is what gets
stored and returned. -/
theorem update_merge_semantics (s : Store) (uid X now : Nat) (d upd : Doc)
    (hd : alGet (userCol s uid) X = some d)
    (hnd : (upd.map Prod.fst).Nodup) :
    updateSummary s X upd (some uid) now =
      (.ok (docMerge d (mkUpdateData upd now)),
        setUserCol s uid (alSet (userCol s uid) X (docMerge d (mkUpdateData upd now)))) ∧
    alGet (userCol (updateSummary s X upd (some uid) now).2 uid) X =
      some (docMerge d (mkUpdateData upd now)) ∧
    alGet (docMerge d (mkUpdateData upd now)) ("updatedAt".toList) = some (.t now) ∧
    alGet (docMerge d (mkUpdateData upd now)) ("version".toList) =
      some (.s ("2.0".toList)) ∧
    (∀ (k : List Char) (v : FVal), alGet upd k = some v →
      k ≠ "updatedAt".toList → k ≠ "version".toList →
      alGet (docMerge d (mkUpdateData upd now)) k = some v) ∧
    (∀ k : List Char, alGet upd k = none →
      k ≠ "updatedAt".toList → k ≠ "version".toList →
      alGet (docMerge d (mkUpdateData upd now)) k = alGet d k) := by
  have hmnd := @mkUpdateData_keys_nodup upd now hnd
  refine ⟨?_, ?_, ?_, ?_, ?_, ?_⟩
  · simp [updateSummary, hd]
  · simp only [updateSummary, hd]
    rw [userCol_setUserCol_same, alGet_alSet_same]
  · exact docMerge_get_present hmnd (mkUpdateData_get_updatedAt upd now)
  · exact docMerge_get_present hmnd (mkUpdateData_get_version upd now)
  · intro k v hv h1 h2
    exact docMerge_get_present hmnd ((mkUpdateData_get_other h1 h2).trans hv)
  · intro k hv h1 h2
    exact docMerge_get_absent ((mkUpdateData_get_other h1 h2).trans hv)

/-- C10 (witness): user 1 updates document 7 with the sample payload — the
payload fields land verbatim, `updatedAt` and `version` are overwritten, and
an untouched field keeps its stored value. -/
theorem update_merge_semantics_witness :
    updateSummary sampleStore 7 sampleUpd (some 1) 42 =
      (.ok (docMerge sampleDoc (mkUpdateData sampleUpd 42)),
        setUserCol sampleStore 1
          (alSet (userCol sampleStore 1) 7 (docMerge sampleDoc (mkUpdateData sampleUpd 42)))) ∧
    alGet (docMerge sampleDoc (mkUpdateData sampleUpd 42)) ("updatedAt".toList) =
      some (.t 42) ∧
    alGet (docMerge sampleDoc (mkUpdateData sampleUpd 42)) ("summary".toList) =
      some (.s ("new".toList)) :=
  have h := update_merge_semantics sampleStore 1 7 42 sampleDoc sampleUpd rfl (by decide)
  ⟨h.1, h.2.2.1, h.2.2.2.2.1 ("summary".toList) (.s ("new".toList)) rfl
    (by decide) (by decide)⟩

/-- C5 (counterexample): in the standalone OCR route, a recognition error
after successful worker creation reaches the catch block without ever calling
`worker.terminate()` — zero terminations, not exactly one. -/
theorem ocr_route_leak_counterexample :
    (ocrRouteHandler ("POST".toList) (.ok []) (.ok ())
        (.error ("recognize failed".toList)) (.ok ())).2 = 0 ∧
    (ocrRouteHandler ("POST".toList) (.ok []) (.ok ())
        (.error ("recognize failed".toList)) (.ok ())).1.1 = 500 :=
  ⟨rfl, rfl⟩

/-- C5 (amended): in `extractTextFromImage` every outcome after a successful
worker creation invokes the termination call exactly once (the finally
block); the standalone OCR route invokes it exactly once on successful
recognition but zero times when recognition throws. -/
theorem ocr_worker_termination :
    (∀ (sp : Except JsErr Unit) (recog : Except JsErr OcrRaw)
        (term : Except JsErr Unit),
      (extractTextFromImage (.ok ()) sp recog term).2 = 1) ∧
    (∀ (body : List Char) (raw : OcrRaw) (term : Except JsErr Unit),
      (ocrRouteHandler ("POST".toList) (.ok body) (.ok ()) (.ok raw) term).2 = 1) ∧
    (∀ (body : List Char) (e : JsErr) (term : Except JsErr Unit),
      (ocrRouteHandler ("POST".toList) (.ok body) (.ok ()) (.error e) term).2 = 0) := by
  refine ⟨?_, ?_, ?_⟩
  · intro sp recog term
    cases sp with
    | error e => rfl
    | ok _ =>
      cases recog with
      | error e => rfl
      | ok raw =>
        simp only [extractTextFromImage]
        split <;> rfl
  · intro body raw term
    cases term <;> rfl
  · intro body e term
    rfl

/-- C7 (counterexample): on a reply with no content before the marker — no
usable summary by the claim's own criterion — the operation does not fail:
the service substitutes the literal `No summary` and the controller check
accepts it (`No summary` is truthy), returning a success result. -/
theorem missing_summary_no_failure_counterexample :
    specSummaryC3 ("Key Points\n1. a".toList) = [] ∧
    controllerAISummaryCheck ("abcdefghij".toList) ("Key Points\n1. a".toList) =
      .ok ⟨"abcdefghij".toList, "No summary".toList, ["1. a".toList]⟩ :=
  ⟨rfl, rfl⟩

/-- C7 (amended): for every reply that lacks a usable summary (no non-empty
content before the marker after stripping `Summary` and trimming), the
summarize operation does not fail: the service returns the literal
`No summary` and the controller accepts the result. -/
theorem missing_summary_no_failure (t raw : List Char)
    (h : specSummaryC3 raw = []) :
    (summarizeWithGemini t raw).summary = noSummaryMsg ∧
    controllerAISummaryCheck t raw =
      .ok ⟨t, noSummaryMsg, specKeyPointsAmended raw⟩ := by
  have hs : (summarizeWithGemini t raw).summary = noSummaryMsg := by
    rw [gemini_summary_eq, specSummaryAmended]
    simp [h]
  refine ⟨hs, ?_⟩
  rw [controllerAISummaryCheck]
  rw [if_neg (by rw [hs]; decide)]
  have h0 : (summarizeWithGemini t raw).original = t := rfl
  have h2 := gemini_keyPoints_eq t raw
  calc Except.ok (ε := List Char) (summarizeWithGemini t raw)
      = .ok ⟨(summarizeWithGemini t raw).original, (summarizeWithGemini t raw).summary,
          (summarizeWithGemini t raw).keyPoints⟩ := rfl
    _ = .ok ⟨t, noSummaryMsg, specKeyPointsAmended raw⟩ := by rw [h0, hs, h2]

/-- C7 (witness): the concrete reply with an empty pre-marker segment yields
the literal `No summary` inside an accepted result. -/
theorem missing_summary_no_failure_witness :
    specSummaryC3 ("Key Points\nonly points here".toList) = [] ∧
    ((summarizeWithGemini ("some input text".toList)
        ("Key Points\nonly points here".toList)).summary = noSummaryMsg ∧
      controllerAISummaryCheck ("some input text".toList)
          ("Key Points\nonly points here".toList) =
        .ok ⟨"some input text".toList, noSummaryMsg,
          specKeyPointsAmended ("Key Points\nonly points here".toList)⟩) :=
  ⟨by decide,
    missing_summary_no_failure ("some input text".toList)
      ("Key Points\nonly points here".toList) (by decide)⟩

/-- C8: the guest-allowing auth resolution never ends the request — the
downstream handler is always invoked; a missing, empty or rejected credential
resolves to the null (guest) user, and an authenticated identity arises only
from a token the verifier accepts. -/
theorem allowGuest_never_fails (h c : Option (List Char))
    (verify : List Char → Except JsErr JwtUser) :
    (∃ u, allowGuest h c verify = .proceed u) ∧
    (∀ p, allowGuest h c verify = .proceed (some p) →
      ∃ t, effectiveToken h c = some t ∧ t ≠ [] ∧ verify t = .ok p) ∧
    (effectiveToken h c = none → allowGuest h c verify = .proceed none) ∧
    (∀ t, effectiveToken h c = some t → t = [] →
      allowGuest h c verify = .proceed none) ∧
    (∀ t e, effectiveToken h c = some t → verify t = .error e →
      allowGuest h c verify = .proceed none) ∧
    (∀ t p, effectiveToken h c = some t → t ≠ [] → verify t = .ok p →
      allowGuest h c verify = .proceed (some p)) := by
  refine ⟨?_, ?_, ?_, ?_, ?_, ?_⟩
  · rw [allowGuest]
    cases effectiveToken h c with
    | none => exact ⟨none, rfl⟩
    | some t =>
      by_cases hnil : t = []
      · exact ⟨none, by simp [hnil]⟩
      · cases hv : verify t with
        | ok u => exact ⟨some u, by simp [hnil, hv]⟩
        | error e => exact ⟨none, by simp [hnil, hv]⟩
  · intro p hp
    rw [allowGuest] at hp
    cases heff : effectiveToken h c with
    | none => rw [heff] at hp; simp at hp
    | some t =>
      rw [heff] at hp
      by_cases hnil : t = []
      · simp [hnil] at hp
      · simp only [if_neg hnil] at hp
        cases hv : verify t with
        | ok u =>
          rw [hv] at hp
          simp at hp
          subst hp
          exact ⟨t, rfl, hnil, hv⟩
        | error e =>
          rw [hv] at hp
          simp at hp
  · intro hn
    simp [allowGuest, hn]
  · intro t ht hnil
    subst hnil
    simp [allowGuest, ht]
  · intro t e ht hv
    by_cases hnil : t = [] <;> simp [allowGuest, ht, hv, hnil]
  · intro t p ht hnil hv
    simp [allowGuest, ht, hnil, hv]

/-- C8 (witness): with the sample verifier, a valid bearer token
authenticates, a bad one degrades to the null user, and no credential at all
degrades to the null user — the handler is invoked in each case. -/
theorem allowGuest_never_fails_witness :
    allowGuest (some ("Bearer tok".toList)) none sampleVerify =
      .proceed (some ⟨5, "user".toList⟩) ∧
    allowGuest (some ("Bearer bad".toList)) none sampleVerify = .proceed none ∧
    allowGuest none none sampleVerify = .proceed none :=
  ⟨(allowGuest_never_fails (some ("Bearer tok".toList)) none sampleVerify).2.2.2.2.2
      ("tok".toList) ⟨5, "user".toList⟩ (by decide) (by decide) (by decide),
    (allowGuest_never_fails (some ("Bearer bad".toList)) none sampleVerify).2.2.2.2.1
      ("bad".toList) ("bad".toList) (by decide) (by decide),
    (allowGuest_never_fails none none sampleVerify).2.2.1 rfl⟩

/-- C9 (counterexample): a guest summarize request (no resolved user) does
persist a SummaryRecord — `saveSummary` falls back to the global `history`
collection, which grows from empty to one record. -/
theorem guest_summarize_persists_counterexample :
    (summarizeControllerSave ⟨[], [], 0⟩ none ("hello world of notes".toList)
        ("short".toList) [] 0).2.global.length = 1 ∧
    (summarizeControllerSave ⟨[], [], 0⟩ none ("hello world of notes".toList)
        ("short".toList) [] 0).2.users = [] ∧
    (summarizeControllerSave ⟨[], [], 0⟩ none ("hello world of notes".toList)
        ("short".toList) [] 0).1 = some 0 := by
  refine ⟨?_, ?_, ?_⟩ <;> rfl

/-- C9 (amended): persistence is gated on identity only in the part_000
upload handler (no user or a non-`user` role skips the extraction store; a
`user` role inserts one document); the summarize controller instead persists
a record for every successful summarization — for a guest the record is
appended to the global `history` collection and no user collection is
touched. -/
theorem guest_persistence_behavior :
    (∀ (s : Store) (t su : List Char) (kp : List (List Char)) (now : Nat),
      (summarizeControllerSave s none t su kp now).2.users = s.users ∧
      (summarizeControllerSave s none t su kp now).2.global =
        s.global ++ [(s.nextId,
          mkSummaryData t su kp ⟨none, none, none, none, some ("text_input".toList)⟩ now)] ∧
      (summarizeControllerSave s none t su kp now).1 = some s.nextId) ∧
    (∀ (es : EStore) (fn ft mt : List Char) (size : Nat) (text : List Char)
        (now : Nat),
      uploadHandlerSave es none fn ft mt size text now = (none, es)) ∧
    (∀ (es : EStore) (u : JwtUser) (fn ft mt : List Char) (size : Nat)
        (text : List Char) (now : Nat), u.role ≠ "user".toList →
      uploadHandlerSave es (some u) fn ft mt size text now = (none, es)) ∧
    (∀ (es : EStore) (u : JwtUser) (fn ft mt : List Char) (size : Nat)
        (text : List Char) (now : Nat), u.role = "user".toList →
      (uploadHandlerSave es (some u) fn ft mt size text now).1 = some es.nextId ∧
      (uploadHandlerSave es (some u) fn ft mt size text now).2.docs.length =
        es.docs.length + 1) := by
  refine ⟨?_, ?_, ?_, ?_⟩
  · intro s t su kp now
    exact ⟨rfl, rfl, rfl⟩
  · intro es fn ft mt size text now
    rfl
  · intro es u fn ft mt size text now hrole
    simp only [uploadHandlerSave]
    rw [if_neg hrole]
  · intro es u fn ft mt size text now hrole
    simp only [uploadHandlerSave]
    rw [if_pos hrole]
    exact ⟨rfl, by simp⟩

/-- C9 (witness): concrete instances — a non-`user` role skips the
extraction store, a `user` role inserts one document. -/
theorem guest_persistence_behavior_witness :
    uploadHandlerSave ⟨[], 0⟩ (some ⟨5, "guest".toList⟩) ("f.pdf".toList)
      ("PDF".toList) ("application/pdf".toList) 10 ("text here".toList) 0 =
      (none, ⟨[], 0⟩) ∧
    ((uploadHandlerSave ⟨[], 0⟩ (some ⟨5, "user".toList⟩) ("f.pdf".toList)
        ("PDF".toList) ("application/pdf".toList) 10 ("text here".toList) 0).1 =
      some 0 ∧
     (uploadHandlerSave ⟨[], 0⟩ (some ⟨5, "user".toList⟩) ("f.pdf".toList)
        ("PDF".toList) ("application/pdf".toList) 10 ("text here".toList) 0).2.docs.length =
      0 + 1) :=
  ⟨guest_persistence_behavior.2.2.1 ⟨[], 0⟩ ⟨5, "guest".toList⟩ ("f.pdf".toList)
      ("PDF".toList) ("application/pdf".toList) 10 ("text here".toList) 0 (by decide),
    guest_persistence_behavior.2.2.2 ⟨[], 0⟩ ⟨5, "user".toList⟩ ("f.pdf".toList)
      ("PDF".toList) ("application/pdf".toList) 10 ("text here".toList) 0 rfl⟩

end NotesSummarizer
